import Mathlib

/-!
Verification of the growth-ledger core of the `harada` goal tracker.

The development shallowly embeds the TypeScript sources:
  * `src/ui/leaf-view.ts` — unified timeline assembly (`buildUnifiedLog`),
    end-date computation (`getEndDate`), the graft form (`renderGraftForm`,
    `doGraft`);
  * `src/features/shine-dialog.ts` — prompt rotation
    (`getRandomSunPrompt`), the weekly reflection dialog
    (`openShineDialog`, `saveSunEntry`);
  * an unnamed earlier variant of the leaf view (origin-chaining grafts).

Modelling conventions:
  * ISO-8601 timestamp strings are modelled by their parsed epoch value in
    milliseconds (an `Int`), the value the source compares timestamps by
    (via `new Date(s).getTime()`).  Optional timestamps become `Option Int`.
  * JavaScript `Array.prototype.sort` with a consistent comparator is a
    stable sort; it is modelled by the stable `List.insertionSort`.
  * JavaScript truthiness on strings treats the empty string as false;
    guards of the form `if (str)` are modelled explicitly.
  * Functions imported from `state.ts` (which is not part of the provided
    sources) are modelled from the spec; each such definition carries a
    doc comment starting with "Modelled from the spec:".
-/

/-! ## Data model -/

/-- Duration class of a sprout (`SproutSeason` in types.ts): one of
1w, 2w, 1m, 3m, 6m, 1y. -/
inductive SproutSeason
  | w1 | w2 | m1 | m3 | m6 | y1
deriving DecidableEq, Repr

/-- Commitment class of a sprout (`SproutEnvironment` in types.ts). -/
inductive SproutEnvironment
  | fertile | firm | barren
deriving DecidableEq, Repr

/-- Lifecycle state of a sprout. -/
inductive SproutState
  | active | completed | failed
deriving DecidableEq, Repr

/-- A watering or shining journal entry: timestamp, free text, optional
prompt. -/
structure JournalEntry where
  timestamp : Int
  content : String
  prompt : Option String
deriving DecidableEq, Repr

/-- A goal instance.  Field names follow the TypeScript `Sprout` type as
used by the sources; `waterEntries`/`sunEntries` are lists (the sources
read them through `?? []`-style fallbacks, so a missing list and an empty
list are indistinguishable). -/
structure Sprout where
  id : String
  leafId : String
  title : String
  season : SproutSeason
  environment : SproutEnvironment
  state : SproutState
  soilCost : Nat
  createdAt : Int
  activatedAt : Option Int
  completedAt : Option Int
  endDate : Option Int
  graftedFromId : Option String
  waterEntries : List JournalEntry
  sunEntries : List JournalEntry
  result : Option Nat
  reflection : Option String
deriving DecidableEq, Repr

/-- Unified log entry types (`LogEntryType` in leaf-view.ts).  The earlier
variant of the file lacks `shining`; it simply never constructs it. -/
inductive LogEntryType
  | sproutStart | watering | shining | completion | graftOrigin
deriving DecidableEq, Repr

/-- Payload of a log entry (the `data` field in leaf-view.ts); every field
is optional there, and each entry kind fills a subset. -/
structure LogData where
  season : Option SproutSeason := none
  environment : Option SproutEnvironment := none
  content : Option String := none
  prompt : Option String := none
  result : Option Nat := none
  reflection : Option String := none
  isSuccess : Option Bool := none
  graftedFromTitle : Option String := none
deriving DecidableEq, Repr

/-- A unified log entry (`LogEntry` in leaf-view.ts). -/
structure LogEntry where
  type : LogEntryType
  timestamp : Int
  sproutId : String
  sproutTitle : String
  data : LogData
deriving DecidableEq, Repr

/-! ## JavaScript string helpers -/

/-- Model of `String.prototype.trim`: strip whitespace from both ends. -/
def jsTrim (s : String) : String :=
  ⟨((s.data.dropWhile Char.isWhitespace).reverse.dropWhile Char.isWhitespace).reverse⟩

/-- Model of the JavaScript `||` operator on strings: the empty string is
falsy, so `a || b` yields `b` whenever `a` is empty. -/
def jsOrElse (a b : String) : String :=
  if a = "" then b else a

/-! ## Timeline assembler (`buildUnifiedLog`, leaf-view.ts lines 150-228) -/

/-- The sprout-start event pushed first for every sprout: timestamped
`activatedAt || createdAt` and carrying season and environment. -/
def startEntry (s : Sprout) : LogEntry :=
  { type := .sproutStart
    timestamp := s.activatedAt.getD s.createdAt
    sproutId := s.id
    sproutTitle := s.title
    data := { season := some s.season, environment := some s.environment } }

/-- The graft-origin event pushed when `sprout.graftedFromId` is truthy
(present and non-empty): timestamped `createdAt`, labelled with the
title of the origin found in the same input sequence, or the placeholder
"previous sprout" when the lookup fails or the title is empty
(`parent?.title || 'previous sprout'`). -/
def graftOriginEntries (sprouts : List Sprout) (s : Sprout) : List LogEntry :=
  match s.graftedFromId with
  | none => []
  | some gid =>
    if gid = "" then []
    else
      let parent := sprouts.find? (fun p => p.id == gid)
      let parentTitle := match parent with | some p => p.title | none => ""
      let label := jsOrElse parentTitle "previous sprout"
      [{ type := .graftOrigin
         timestamp := s.createdAt
         sproutId := s.id
         sproutTitle := s.title
         data := { graftedFromTitle := some label } }]

/-- One watering event per element of `waterEntries`, at the entry's own
timestamp. -/
def wateringEntries (s : Sprout) : List LogEntry :=
  s.waterEntries.map fun w =>
    { type := .watering
      timestamp := w.timestamp
      sproutId := s.id
      sproutTitle := s.title
      data := { content := some w.content, prompt := w.prompt } }

/-- One shining event per element of `sunEntries`, at the entry's own
timestamp (leaf-view.ts lines 194-206; absent from the earlier variant). -/
def shiningEntries (s : Sprout) : List LogEntry :=
  s.sunEntries.map fun w =>
    { type := .shining
      timestamp := w.timestamp
      sproutId := s.id
      sproutTitle := s.title
      data := { content := some w.content, prompt := w.prompt } }

/-- The completion event pushed when `completedAt` is set: timestamped
`completedAt`, with `isSuccess` equal to `state === 'completed'`. -/
def completionEntries (s : Sprout) : List LogEntry :=
  match s.completedAt with
  | none => []
  | some t =>
    [{ type := .completion
       timestamp := t
       sproutId := s.id
       sproutTitle := s.title
       data := { result := s.result
                 reflection := s.reflection
                 isSuccess := some (s.state == .completed) } }]

/-- All entries pushed for one sprout by the current leaf-view.ts, in push
order: start, graft-origin, waterings, shinings, completion. -/
def sproutEntries (sprouts : List Sprout) (s : Sprout) : List LogEntry :=
  [startEntry s] ++ graftOriginEntries sprouts s ++ wateringEntries s
    ++ shiningEntries s ++ completionEntries s

/-- All entries pushed for one sprout by the earlier (unnamed) variant of
the leaf view, which has no shining events. -/
def sproutEntriesV0 (sprouts : List Sprout) (s : Sprout) : List LogEntry :=
  [startEntry s] ++ graftOriginEntries sprouts s ++ wateringEntries s
    ++ completionEntries s

/-- Descending-timestamp order used by the final sort: the comparator
`(a, b) => new Date(b.timestamp).getTime() - new Date(a.timestamp).getTime()`
places `a` no later than `b` exactly when `b.timestamp ≤ a.timestamp`. -/
def tsDesc (a b : LogEntry) : Prop :=
  b.timestamp ≤ a.timestamp

instance : DecidableRel tsDesc :=
  fun a b => inferInstanceAs (Decidable (b.timestamp ≤ a.timestamp))

instance : IsTotal LogEntry tsDesc :=
  ⟨fun a b => le_total b.timestamp a.timestamp⟩

instance : IsTrans LogEntry tsDesc :=
  ⟨fun _ _ _ hab hbc => le_trans hbc hab⟩

/-- The timeline assembler of leaf-view.ts: expand every sprout into its
events, then sort by timestamp descending.  `Array.prototype.sort` with a
consistent comparator is a stable sort and is modelled by the stable
`List.insertionSort`. -/
def buildUnifiedLog (sprouts : List Sprout) : List LogEntry :=
  List.insertionSort tsDesc (sprouts.flatMap (sproutEntries sprouts))

/-- The timeline assembler of the earlier (unnamed) leaf-view variant. -/
def buildUnifiedLogV0 (sprouts : List Sprout) : List LogEntry :=
  List.insertionSort tsDesc (sprouts.flatMap (sproutEntriesV0 sprouts))

/-! ## Claim C4: per-sprout event inventory -/

/-- Event inventory asserted by claim C4 for one sprout, written from the
claim text: one sprout-start at `activatedAt` (fallback `createdAt`), one
graft-origin at `createdAt` iff `graftedFromId` is set, one watering per
`waterEntries` element at its own timestamp, and one completion at
`completedAt` iff set, with `isSuccess = (state == completed)`.  Fields the
claim does not mention are filled the way the code fills them.  Note that
this inventory has no shining events. -/
def c4ClaimEvents (sprouts : List Sprout) (s : Sprout) : List LogEntry :=
  [{ type := .sproutStart
     timestamp := s.activatedAt.getD s.createdAt
     sproutId := s.id
     sproutTitle := s.title
     data := { season := some s.season, environment := some s.environment } }]
  ++ (match s.graftedFromId with
      | none => []
      | some gid =>
        if gid = "" then []
        else
          let parent := sprouts.find? (fun p => p.id == gid)
          let parentTitle := match parent with | some p => p.title | none => ""
          let label := jsOrElse parentTitle "previous sprout"
          [{ type := .graftOrigin
             timestamp := s.createdAt
             sproutId := s.id
             sproutTitle := s.title
             data := { graftedFromTitle := some label } }])
  ++ (s.waterEntries.map fun w =>
      { type := .watering
        timestamp := w.timestamp
        sproutId := s.id
        sproutTitle := s.title
        data := { content := some w.content, prompt := w.prompt } })
  ++ (match s.completedAt with
      | none => []
      | some t =>
        [{ type := .completion
           timestamp := t
           sproutId := s.id
           sproutTitle := s.title
           data := { result := s.result
                     reflection := s.reflection
                     isSuccess := some (s.state == .completed) } }])

/-- Claim C4 as stated, at a given input: the assembled log consists of
exactly the claimed inventory (as a multiset; the final sort only
reorders). -/
def c4ClaimHolds (sprouts : List Sprout) : Prop :=
  (buildUnifiedLog sprouts).Perm (sprouts.flatMap (c4ClaimEvents sprouts))

/-- A sprout with one shining (sun reflection) entry and nothing else
optional: the claimed inventory misses the shining event. -/
def c4Sprout : Sprout :=
  { id := "s1", leafId := "l1", title := "Meditate daily", season := .m1,
    environment := .firm, state := .active, soilCost := 20,
    createdAt := 1000, activatedAt := some 1000, completedAt := none,
    endDate := none, graftedFromId := none, waterEntries := [],
    sunEntries := [{ timestamp := 2000, content := "weekly reflection",
                     prompt := none }],
    result := none, reflection := none }

/-- Amended inventory: the claimed events plus one shining entry per
`sunEntries` element at that entry's own timestamp. -/
def c4AmendedEvents (sprouts : List Sprout) (s : Sprout) : List LogEntry :=
  [{ type := .sproutStart
     timestamp := s.activatedAt.getD s.createdAt
     sproutId := s.id
     sproutTitle := s.title
     data := { season := some s.season, environment := some s.environment } }]
  ++ (match s.graftedFromId with
      | none => []
      | some gid =>
        if gid = "" then []
        else
          let parent := sprouts.find? (fun p => p.id == gid)
          let parentTitle := match parent with | some p => p.title | none => ""
          let label := jsOrElse parentTitle "previous sprout"
          [{ type := .graftOrigin
             timestamp := s.createdAt
             sproutId := s.id
             sproutTitle := s.title
             data := { graftedFromTitle := some label } }])
  ++ (s.waterEntries.map fun w =>
      { type := .watering
        timestamp := w.timestamp
        sproutId := s.id
        sproutTitle := s.title
        data := { content := some w.content, prompt := w.prompt } })
  ++ (s.sunEntries.map fun w =>
      { type := .shining
        timestamp := w.timestamp
        sproutId := s.id
        sproutTitle := s.title
        data := { content := some w.content, prompt := w.prompt } })
  ++ (match s.completedAt with
      | none => []
      | some t =>
        [{ type := .completion
           timestamp := t
           sproutId := s.id
           sproutTitle := s.title
           data := { result := s.result
                     reflection := s.reflection
                     isSuccess := some (s.state == .completed) } }])

/-- Concrete sprout whose graft origin does not resolve. -/
def c8Sprout : Sprout :=
  { id := "s2", leafId := "l1", title := "Run weekly", season := .w1,
    environment := .fertile, state := .active, soilCost := 5,
    createdAt := 500, activatedAt := some 600, completedAt := none,
    endDate := none, graftedFromId := some "ghost", waterEntries := [],
    sunEntries := [], result := none, reflection := none }

/-! ## Claim C3: when a graft entry point is offered -/

/-- Stand-in for the graft-section markup of leaf-view.ts (lines 309-331);
only its non-emptiness matters to the claims, so the body is abbreviated. -/
def graftFormHtml : String :=
  "<div class=\"log-graft-section\"><button>Graft</button>...</div>"

/-- Graft form rendering (leaf-view.ts lines 303-332): the graft entry
point is rendered only when there is no active sprout on this leaf. -/
def renderGraftForm (hasActive : Bool) : String :=
  if hasActive then "" else graftFormHtml

/-- The active-sprout flag computed by render (leaf-view.ts line 368). -/
def hasActiveSprout (sprouts : List Sprout) : Bool :=
  sprouts.any (fun s => s.state == .active)

/-- Condition under which the earlier (origin-chaining) variant renders a
Graft button on a log entry (part_000 line 257): the entry is a completion
entry, its `isSuccess` flag is truthy, and its sprout id resolves in the
sprout list. -/
def completionGraftOffered (sprouts : List Sprout) (e : LogEntry) : Bool :=
  e.type == .completion && e.data.isSuccess == some true
    && (sprouts.find? (fun s => s.id == e.sproutId)).isSome

/-- A terminal (completed) sprout: no active sprout on its leaf, so the
current leaf view offers the graft form. -/
def c3aSprout : Sprout :=
  { id := "a1", leafId := "l1", title := "Read ten books", season := .m3,
    environment := .firm, state := .completed, soilCost := 30,
    createdAt := 100, activatedAt := some 100, completedAt := some 900,
    endDate := none, graftedFromId := none, waterEntries := [],
    sunEntries := [], result := some 4, reflection := some "done" }

/-- A completed sprout for the origin-chaining witness. -/
def c3bSprout : Sprout :=
  { id := "b1", leafId := "l2", title := "Sketch daily", season := .w2,
    environment := .barren, state := .completed, soilCost := 12,
    createdAt := 100, activatedAt := some 150, completedAt := some 900,
    endDate := none, graftedFromId := none, waterEntries := [],
    sunEntries := [], result := some 5, reflection := some "kept it up" }

/-- The completion entry the earlier variant emits for `c3bSprout`. -/
def c3Entry : LogEntry :=
  { type := .completion, timestamp := 900, sproutId := "b1",
    sproutTitle := "Sketch daily",
    data := { result := some 5, reflection := some "kept it up",
              isSuccess := some true } }

/-! ## Claim C9: buildUnifiedLog is deterministic and stateless -/

/-- The timeline assembler lifted to a transformer of the process-wide
mutable module state (the prompt-rotation recency buffer is the only such
state across the embedded sources).  The body of `buildUnifiedLog` neither
reads nor writes it — it only reads its argument and pushes onto a local
array before sorting it — so its lift leaves the state untouched. -/
def buildUnifiedLogSt (hidden : List String) (sprouts : List Sprout) :
    List LogEntry × List String :=
  (buildUnifiedLog sprouts, hidden)

/-! ## JavaScript date model (UTC)

`getEndDate` mutates a `Date` through `setDate`, `setMonth`, `setFullYear`
and `setUTCHours`.  A date is modelled by its civil UTC components (the
code is specified against a UTC anchor; the model assumes a UTC
environment, where the local-time setters coincide with the UTC ones).
ECMAScript setters renormalize out-of-range components through plain day
arithmetic: day 32 of January is February 1, and so on. -/

/-- Gregorian leap-year rule, as implemented by ECMAScript dates. -/
def isLeapYear (y : Int) : Bool :=
  y % 4 == 0 && (y % 100 != 0 || y % 400 == 0)

/-- Days in a month; `m` is 0-based as in JS `getMonth()`.  Total in `m`
(the sources only produce `m < 12`). -/
def daysInMonth (y : Int) (m : Nat) : Nat :=
  match m with
  | 1 => if isLeapYear y then 29 else 28
  | 3 | 5 | 8 | 10 => 30
  | _ => 31

/-- The month after `(y, mo)`. -/
def nextMonth (y : Int) (mo : Nat) : Int × Nat :=
  if mo = 11 then (y + 1, 0) else (y, mo + 1)

/-- Fuelled worker for day normalization: spill an overflowing day count
into the following months.  Each step strictly decreases the day count, so
fuel equal to the initial day count always suffices. -/
def normDayGo : Nat → Int → Nat → Nat → Int × Nat × Nat
  | 0, y, mo, d => (y, mo, d)
  | fuel + 1, y, mo, d =>
    if d ≤ daysInMonth y mo then (y, mo, d)
    else normDayGo fuel (nextMonth y mo).1 (nextMonth y mo).2 (d - daysInMonth y mo)

/-- ECMAScript day-of-month normalization: a day count exceeding the
length of `(y, mo)` spills into the following months. -/
def normDay (y : Int) (mo d : Nat) : Int × Nat × Nat :=
  normDayGo d y mo d

/-- A JS `Date` under a UTC environment, by civil components: `year` as
`getFullYear()`, 0-based `month` as `getMonth()`, 1-based `day` as
`getDate()`, and the milliseconds elapsed since midnight. -/
structure JsDate where
  year : Int
  month : Nat
  day : Nat
  msOfDay : Nat
deriving DecidableEq, Repr

/-- A date whose components are in range. -/
def ValidJsDate (dt : JsDate) : Prop :=
  dt.month < 12 ∧ 1 ≤ dt.day ∧ dt.day ≤ daysInMonth dt.year dt.month
    ∧ dt.msOfDay < 86400000

instance (dt : JsDate) : Decidable (ValidJsDate dt) :=
  inferInstanceAs (Decidable (_ ∧ _ ∧ _ ∧ _))

/-- Model of `d.setDate(n)`: replace the day of month by `n` and
renormalize. -/
def jsSetDate (dt : JsDate) (n : Nat) : JsDate :=
  let c := normDay dt.year dt.month n
  { year := c.1, month := c.2.1, day := c.2.2, msOfDay := dt.msOfDay }

/-- Model of `d.setMonth(d.getMonth() + k)`: bump the month index,
renormalize the month into the year, then renormalize the day. -/
def jsAddMonths (dt : JsDate) (k : Nat) : JsDate :=
  let m := dt.month + k
  let y := dt.year + (m / 12 : Nat)
  let mo := m % 12
  let c := normDay y mo dt.day
  { year := c.1, month := c.2.1, day := c.2.2, msOfDay := dt.msOfDay }

/-- Model of `d.setFullYear(d.getFullYear() + k)`: bump the year, then
renormalize the day (February 29 may spill to March 1). -/
def jsAddYears (dt : JsDate) (k : Nat) : JsDate :=
  let c := normDay (dt.year + k) dt.month dt.day
  { year := c.1, month := c.2.1, day := c.2.2, msOfDay := dt.msOfDay }

/-- Model of `d.setUTCHours(15, 0, 0, 0)`. -/
def jsSetUTCHours15 (dt : JsDate) : JsDate :=
  { dt with msOfDay := 15 * 3600000 }

/-- End-date computation (leaf-view.ts lines 90-102): switch on the season
(+7 days, +14 days, +1/+3/+6 months, +1 year), then anchor the time of day
at 15:00:00.000 UTC. -/
def getEndDate (season : SproutSeason) (startDate : JsDate) : JsDate :=
  let stepped :=
    match season with
    | .w1 => jsSetDate startDate (startDate.day + 7)
    | .w2 => jsSetDate startDate (startDate.day + 14)
    | .m1 => jsAddMonths startDate 1
    | .m3 => jsAddMonths startDate 3
    | .m6 => jsAddMonths startDate 6
    | .y1 => jsAddYears startDate 1
  jsSetUTCHours15 stepped

/-- Days between the civil date `(y, m, d)` (0-based month, 1-based day)
and the epoch 1970-01-01, by the standard era-based count.  Used only to
turn a civil date back into the epoch value an ISO timestamp stores. -/
def daysFromCivil (y : Int) (m d : Nat) : Int :=
  let yAdj : Int := if m ≤ 1 then y - 1 else y
  let era : Int := yAdj / 400
  let yoe : Int := yAdj - era * 400
  let mp : Nat := (m + 10) % 12
  let doy : Int := (153 * mp + 2) / 5 + d - 1
  let doe : Int := yoe * 365 + yoe / 4 - yoe / 100 + doy
  era * 146097 + doe - 719468

/-- Epoch milliseconds of a civil UTC date. -/
def epochMillis (dt : JsDate) : Int :=
  daysFromCivil dt.year dt.month dt.day * 86400000 + dt.msOfDay

/-! ## Resource ledger and graft commit (claim C2) -/

/-- The portion of the persisted state the graft path touches: the soil
balance and the sprout collection of the current leaf. -/
structure LedgerState where
  soil : Nat
  sprouts : List Sprout
deriving DecidableEq, Repr

/-- Modelled from the spec: `calculateSoilCost` lives in state.ts, which
is not under the provided sources.  The spec fixes only that it is a
total, non-negative, deterministic function of season and environment,
monotone in season length and environment harshness; the concrete values
here are illustrative (it matches the spec example of 5 soil for a
1-week fertile sprout).  No claim depends on the values. -/
def calculateSoilCost (season : SproutSeason) (env : SproutEnvironment) : Nat :=
  let seasonRank := match season with
    | .w1 => 0 | .w2 => 1 | .m1 => 2 | .m3 => 3 | .m6 => 4 | .y1 => 5
  let envRank := match env with
    | .fertile => 0 | .firm => 1 | .barren => 2
  (seasonRank + 1) * (envRank + 1) * 5

/-- Modelled from the spec: `canAffordSoil(cost)` is `cost <= availableSoil()`. -/
def canAffordSoil (st : LedgerState) (cost : Nat) : Bool :=
  cost ≤ st.soil

/-- Modelled from the spec: `spendSoil(cost)` is a no-op signalling
InsufficientResource when `cost > availableSoil()`, and otherwise
decrements the available soil by exactly `cost`. -/
def spendSoil (st : LedgerState) (cost : Nat) : LedgerState :=
  if cost ≤ st.soil then { st with soil := st.soil - cost } else st

/-- The object literal doGraft passes to `graftFromLeaf`. -/
structure GraftPayload where
  title : String
  season : SproutSeason
  environment : SproutEnvironment
  state : SproutState
  soilCost : Nat
  activatedAt : Int
  endDate : Int
deriving DecidableEq, Repr

/-- Modelled from the spec: `graftFromLeaf` (state.ts) creates a new
Sprout from the payload — stamping a fresh id and the creation time — and
appends it to the thread's sprout collection. -/
def graftFromLeaf (st : LedgerState) (twigId leafId newId : String)
    (now : Int) (p : GraftPayload) : LedgerState :=
  let _ := twigId
  { st with sprouts := st.sprouts ++
      [{ id := newId, leafId := leafId, title := p.title, season := p.season,
         environment := p.environment, state := p.state,
         soilCost := p.soilCost, createdAt := now,
         activatedAt := some p.activatedAt, completedAt := none,
         endDate := some p.endDate, graftedFromId := none,
         waterEntries := [], sunEntries := [], result := none,
         reflection := none }] }

/-- The closure-captured selections doGraft reads (leaf-view.ts lines
124-127 and the form input). -/
structure GraftFormState where
  currentTwigId : Option String
  currentLeafId : Option String
  selectedSeason : Option SproutSeason
  selectedEnvironment : Option SproutEnvironment
  titleInput : String
deriving DecidableEq, Repr

/-- The graft commit path (leaf-view.ts lines 426-456).  Guard order as in
the source: bail out unless twig, leaf, season and environment are all
selected; trim the title and bail out if empty; compute the cost; bail out
unless the cost is affordable; only then spend the soil and append the new
sprout.  The UI callbacks (`onSoilChange`, `onSave`, `onClose`,
`hideGraftForm`) affect only presentation and are outside the ledger
state. -/
def doGraft (form : GraftFormState) (nowDate : JsDate) (newId : String)
    (st : LedgerState) : LedgerState :=
  match form.currentTwigId, form.currentLeafId, form.selectedSeason,
      form.selectedEnvironment with
  | some twigId, some leafId, some season, some env =>
    let title := jsTrim form.titleInput
    if title = "" then st
    else
      let cost := calculateSoilCost season env
      if !canAffordSoil st cost then st
      else
        let st1 := spendSoil st cost
        let endDate := getEndDate season nowDate
        let now := epochMillis nowDate
        graftFromLeaf st1 twigId leafId newId now
          { title := title, season := season, environment := env,
            state := .active, soilCost := cost, activatedAt := now,
            endDate := epochMillis endDate }
  | _, _, _, _ => st

/-! ## Weekly reflection gate and shine dialog (claims C5, C10) -/

/-- Milliseconds per day. -/
def MS_PER_DAY : Int := 86400000

/-- Monday-anchored UTC week index of an epoch-millisecond timestamp (the
week-boundary policy the spec names as its example; epoch day 0,
1970-01-01, was a Thursday, so day counts are shifted by 3 to align week
boundaries to Mondays).  Division is floor division. -/
def weekIndex (t : Int) : Int :=
  (t / MS_PER_DAY + 3) / 7

/-- The twig-level state the reflection path touches: the sun balance and
capacity, and all twig reflection entries as (twigId, entry) pairs. -/
structure SunState where
  sun : Nat
  sunCapacity : Nat
  twigSunEntries : List (String × JournalEntry)
deriving DecidableEq, Repr

/-- Modelled from the spec: `wasShoneThisWeek` (state.ts, not under the
provided sources) scans the reflection-entry timestamps of the twig for
any entry falling within the current calendar week. -/
def wasShoneThisWeek (st : SunState) (now : Int) (twigId : String) : Bool :=
  st.twigSunEntries.any fun pr =>
    pr.1 == twigId && weekIndex pr.2.timestamp == weekIndex now

/-- Modelled from the spec: `canAffordSun` (state.ts), unit cost of 1 sun. -/
def canAffordSun (st : SunState) : Bool :=
  1 ≤ st.sun

/-- Modelled from the spec: `spendSun` (state.ts), analogous to
`spendSoil`: no-op when no sun is available, else decrement by 1. -/
def spendSun (st : SunState) : SunState :=
  if 1 ≤ st.sun then { st with sun := st.sun - 1 } else st

/-- Modelled from the spec: `addSunEntry` (state.ts) appends exactly one
reflection entry (content plus the eliciting prompt, stamped now) to the
twig. -/
def addSunEntry (st : SunState) (twigId content : String)
    (prompt : Option String) (now : Int) : SunState :=
  { st with twigSunEntries := st.twigSunEntries
      ++ [(twigId, { timestamp := now, content := content, prompt := prompt })] }

/-- The dialog-local state of shine-dialog.ts: the current shining sprout
(id and twig id), the journal textarea value and its placeholder, and
dialog visibility. -/
structure ShineDialogState where
  currentShiningSprout : Option (String × String)
  journalValue : String
  journalPlaceholder : String
  visible : Bool
deriving DecidableEq, Repr

/-- Outcome surfaced by the shine-dialog entry points via `onSetStatus`. -/
inductive ShineOutcome
  | weeklyLimit | noSun | opened
deriving DecidableEq, Repr

/-- The dialog-open path (shine-dialog.ts lines 60-81): first the weekly
gate on the twig, then sun affordability, then open the dialog (remember
the shining sprout, clear the journal, and install a freshly rotated
prompt as its placeholder; `promptPick` stands for the value returned by
`getRandomSunPrompt`). -/
def openShineDialog (st : SunState) (dlg : ShineDialogState) (now : Int)
    (sproutId twigId promptPick : String) : ShineDialogState × ShineOutcome :=
  if wasShoneThisWeek st now twigId then (dlg, .weeklyLimit)
  else if !canAffordSun st then (dlg, .noSun)
  else
    ({ currentShiningSprout := some (sproutId, twigId)
       journalValue := ""
       journalPlaceholder := promptPick
       visible := true }, .opened)

/-- The dialog-close path (shine-dialog.ts lines 83-88): hide, clear the
journal, forget the shining sprout. -/
def closeShineDialog (dlg : ShineDialogState) : ShineDialogState :=
  { dlg with visible := false, journalValue := "", currentShiningSprout := none }

/-- The save path (shine-dialog.ts lines 90-115): bail out silently when
the trimmed journal is empty; re-check sun affordability (but never the
weekly gate); when a shining sprout is set, spend one sun and append the
entry to its twig; close the dialog in every non-empty case.  The third
component is the status message passed to `onSetStatus`, if any. -/
def saveSunEntry (st : SunState) (dlg : ShineDialogState) (now : Int) :
    SunState × ShineDialogState × Option String :=
  let entry := jsTrim dlg.journalValue
  if entry = "" then (st, dlg, none)
  else if !canAffordSun st then
    (st, closeShineDialog dlg, some "No sun left this week!")
  else
    match dlg.currentShiningSprout with
    | some cur =>
      let st1 := spendSun st
      let prompt := dlg.journalPlaceholder
      let st2 := addSunEntry st1 cur.2 entry (some prompt) now
      (st2, closeShineDialog dlg, some "Light radiated on this life facet!")
    | none => (st, closeShineDialog dlg, none)

/-- Reflection entries a given twig holds. -/
def twigEntryCount (st : SunState) (twigId : String) : Nat :=
  (st.twigSunEntries.filter (fun pr => pr.1 == twigId)).length

/-! ## Prompt rotation (claim C6) -/

/-- The recency cap `RECENT_SUN_PROMPT_LIMIT` (shine-dialog.ts line 18):
`Math.min(10, Math.floor(sunPrompts.length / 3))`.  The prompt pool is a
parameter because it is parsed from an asset file outside the sources. -/
def recentLimit (sunPrompts : List String) : Nat :=
  min 10 (sunPrompts.length / 3)

/-- Prompt rotation (shine-dialog.ts lines 20-32) with the module-level
recency buffer threaded explicitly.  The random draw
`Math.floor(Math.random() * pool.length)` is abstracted by the index `r`
(always below the pool length when the pool is non-empty); an
out-of-range index yields no prompt and leaves the buffer alone, which is
unreachable for the indices the random draw produces. -/
def getRandomSunPrompt (sunPrompts recent : List String) (r : Nat) :
    Option String × List String :=
  let available := sunPrompts.filter fun p => !recent.contains p
  let pool := if available.length > 0 then available else sunPrompts
  match pool[r]? with
  | none => (none, recent)
  | some prompt =>
    let recent1 := recent ++ [prompt]
    let recent2 :=
      if recent1.length > recentLimit sunPrompts then recent1.tail else recent1
    (some prompt, recent2)

/-! ## Calendar-arithmetic specification of getEndDate (claim C7) -/

/-- Next calendar day of a civil (year, month, day) triple. -/
def succCivil : Int × Nat × Nat → Int × Nat × Nat
  | (y, mo, d) =>
    if d < daysInMonth y mo then (y, mo, d + 1)
    else ((nextMonth y mo).1, (nextMonth y mo).2, 1)

/-- Add `n` calendar days, one day at a time. -/
def addCalendarDays (dt : JsDate) (n : Nat) : JsDate :=
  let c := succCivil^[n] (dt.year, dt.month, dt.day)
  { year := c.1, month := c.2.1, day := c.2.2, msOfDay := dt.msOfDay }

/-- Add `k` calendar months: advance the month index by `k`; keep the day
of month when the target month has it, else spill the excess into the
following month (the ECMAScript rule: January 31 plus one month is
March 2 or 3). -/
def addCalendarMonths (dt : JsDate) (k : Nat) : JsDate :=
  let mi : Int := 12 * dt.year + dt.month + k
  let y := mi / 12
  let mo := (mi % 12).toNat
  if dt.day ≤ daysInMonth y mo then
    { year := y, month := mo, day := dt.day, msOfDay := dt.msOfDay }
  else
    { year := (nextMonth y mo).1, month := (nextMonth y mo).2,
      day := dt.day - daysInMonth y mo, msOfDay := dt.msOfDay }

/-- Add `k` calendar years, with the same day-spill rule (February 29
spills to March 1 in a non-leap target year). -/
def addCalendarYears (dt : JsDate) (k : Nat) : JsDate :=
  if dt.day ≤ daysInMonth (dt.year + k) dt.month then
    { year := dt.year + k, month := dt.month, day := dt.day,
      msOfDay := dt.msOfDay }
  else
    { year := (nextMonth (dt.year + k) dt.month).1,
      month := (nextMonth (dt.year + k) dt.month).2,
      day := dt.day - daysInMonth (dt.year + k) dt.month,
      msOfDay := dt.msOfDay }

/-- The end date asserted by claim C7: start plus the season duration
(7 or 14 calendar days, 1, 3 or 6 calendar months, 1 calendar year),
anchored at 15:00:00.000 UTC. -/
def endDateSpec (season : SproutSeason) (start : JsDate) : JsDate :=
  let moved :=
    match season with
    | .w1 => addCalendarDays start 7
    | .w2 => addCalendarDays start 14
    | .m1 => addCalendarMonths start 1
    | .m3 => addCalendarMonths start 3
    | .m6 => addCalendarMonths start 6
    | .y1 => addCalendarYears start 1
  { moved with msOfDay := 15 * 3600000 }

/-! ## Claim C1 -/

/-- C1: on the empty sprout sequence `buildUnifiedLog` returns the empty
sequence, and on every input the returned sequence is ordered
non-increasing by timestamp (most recent first). -/
theorem buildUnifiedLog_empty_and_sorted :
    buildUnifiedLog [] = []
      ∧ ∀ sprouts : List Sprout,
          (buildUnifiedLog sprouts).Pairwise
            (fun a b => b.timestamp ≤ a.timestamp) := by
  constructor
  · rfl
  · intro sprouts
    exact List.sorted_insertionSort tsDesc _

/-- C4 counterexample: for a sprout with a non-empty `sunEntries` list the
log built by the code contains a shining event, so it is not a
permutation of the inventory claimed by C4 (2 entries versus 1). -/
theorem c4_inventory_counterexample : ¬ c4ClaimHolds [c4Sprout] :=
  fun h => absurd h.length_eq (by decide)

/-- C4 amended: for every sprout the code emits exactly one sprout-start
(at `activatedAt`, fallback `createdAt`), one graft-origin at `createdAt`
iff `graftedFromId` is set, one watering per `waterEntries` element, one
shining per `sunEntries` element, and one completion at `completedAt` iff
set with `isSuccess = (state == completed)`; the assembled log is exactly
this inventory up to the final reordering sort. -/
theorem buildUnifiedLog_inventory_amended :
    ∀ sprouts : List Sprout,
      (buildUnifiedLog sprouts).Perm
        (sprouts.flatMap (c4AmendedEvents sprouts)) := by
  intro sprouts
  have hev : ∀ s, sproutEntries sprouts s = c4AmendedEvents sprouts s :=
    fun _ => rfl
  have hcong : sprouts.flatMap (sproutEntries sprouts)
      = sprouts.flatMap (c4AmendedEvents sprouts) :=
    congrArg (fun f => sprouts.flatMap f) (funext hev)
  have hperm := List.perm_insertionSort tsDesc
    (sprouts.flatMap (sproutEntries sprouts))
  rw [buildUnifiedLog, ← hcong]
  exact hperm

/-! ## Claim C8: unresolved graft origin falls back to a placeholder -/

/-- C8: when a sprout has `graftedFromId` set but the id resolves to no
sprout in the same input sequence, `buildUnifiedLog` still emits the
graft-origin entry, labelled with the placeholder "previous sprout". -/
theorem graftOrigin_placeholder_on_unresolved :
    ∀ (sprouts : List Sprout) (s : Sprout) (gid : String),
      s ∈ sprouts → s.graftedFromId = some gid → gid ≠ "" →
      sprouts.find? (fun p => p.id == gid) = none →
      ({ type := .graftOrigin
         timestamp := s.createdAt
         sproutId := s.id
         sproutTitle := s.title
         data := { graftedFromTitle := some "previous sprout" } } : LogEntry)
        ∈ buildUnifiedLog sprouts := by
  intro sprouts s gid hs hg hne hfind
  rw [buildUnifiedLog]
  rw [List.mem_insertionSort]
  rw [List.mem_flatMap]
  refine ⟨s, hs, ?_⟩
  simp only [sproutEntries, graftOriginEntries, hg, hne, hfind, if_false,
    jsOrElse, List.mem_append, List.mem_singleton]
  simp

/-- Witness for C8 at a concrete input. -/
theorem graftOrigin_placeholder_on_unresolved_witness :
    ({ type := .graftOrigin
       timestamp := 500
       sproutId := "s2"
       sproutTitle := "Run weekly"
       data := { graftedFromTitle := some "previous sprout" } } : LogEntry)
      ∈ buildUnifiedLog [c8Sprout] :=
  graftOrigin_placeholder_on_unresolved [c8Sprout] c8Sprout "ghost"
    (by decide) rfl (by decide) (by decide)

/-- Every graft-origin event has type graftOrigin. -/
theorem type_of_mem_graftOriginEntries {sprouts : List Sprout} {s : Sprout}
    {e : LogEntry} (h : e ∈ graftOriginEntries sprouts s) :
    e.type = .graftOrigin := by
  unfold graftOriginEntries at h
  split at h
  · exact absurd h (List.not_mem_nil _)
  · split at h
    · exact absurd h (List.not_mem_nil _)
    · rw [List.mem_singleton] at h
      rw [h]

/-- Every watering event has type watering. -/
theorem type_of_mem_wateringEntries {s : Sprout} {e : LogEntry}
    (h : e ∈ wateringEntries s) : e.type = .watering := by
  rw [wateringEntries, List.mem_map] at h
  obtain ⟨w, _, hw⟩ := h
  rw [← hw]

/-- Every completion event records its sprout id and the success flag
derived from the sprout state. -/
theorem success_of_mem_completionEntries {s : Sprout} {e : LogEntry}
    (h : e ∈ completionEntries s) :
    e.sproutId = s.id ∧ e.data.isSuccess = some (s.state == .completed) := by
  unfold completionEntries at h
  split at h
  · exact absurd h (List.not_mem_nil _)
  · rw [List.mem_singleton] at h
    rw [h]
    exact ⟨rfl, rfl⟩

/-- C3: a graft entry point is only offered when the leaf has no active
sprout (current leaf view), or, in the origin-chaining variant, on a
completion entry whose originating sprout is terminal: the button only
appears for an origin in state completed (hence in completed-or-failed, as
the claim allows). -/
theorem graft_entry_point_policy :
    (∀ sprouts : List Sprout,
        renderGraftForm (hasActiveSprout sprouts) ≠ "" →
          ∀ s ∈ sprouts, s.state ≠ .active)
      ∧ (∀ (sprouts : List Sprout) (e : LogEntry),
          e ∈ buildUnifiedLogV0 sprouts →
          completionGraftOffered sprouts e = true →
            ∃ s ∈ sprouts, s.id = e.sproutId ∧ s.state = .completed) := by
  constructor
  · intro sprouts hform s hs hact
    have hflag : hasActiveSprout sprouts = true :=
      List.any_eq_true.mpr ⟨s, hs, by simp [hact]⟩
    rw [renderGraftForm, hflag] at hform
    exact hform rfl
  · intro sprouts e he hoff
    simp only [completionGraftOffered, Bool.and_eq_true, beq_iff_eq] at hoff
    obtain ⟨⟨htype, hsucc⟩, _⟩ := hoff
    rw [buildUnifiedLogV0, List.mem_insertionSort, List.mem_flatMap] at he
    obtain ⟨s, hs, hmem⟩ := he
    refine ⟨s, hs, ?_⟩
    simp only [sproutEntriesV0, List.append_assoc, List.mem_append] at hmem
    rcases hmem with hmem | hmem | hmem | hmem
    · rw [List.mem_singleton] at hmem
      rw [hmem] at htype
      exact absurd htype (by simp [startEntry])
    · have := type_of_mem_graftOriginEntries hmem
      rw [htype] at this
      exact absurd this (by simp)
    · have := type_of_mem_wateringEntries hmem
      rw [htype] at this
      exact absurd this (by simp)
    · obtain ⟨hid, hflag⟩ := success_of_mem_completionEntries hmem
      refine ⟨hid.symm, ?_⟩
      rw [hsucc] at hflag
      have : (s.state == SproutState.completed) = true :=
        (Option.some.inj hflag).symm
      exact beq_iff_eq.mp this

/-- Witness for C3 at concrete inputs: the graft form of the current view
is offered on a leaf whose only sprout is completed (hence not active),
and the Graft button of the origin-chaining variant on the completion
entry of `c3bSprout` names an origin in state completed. -/
theorem graft_entry_point_policy_witness :
    c3aSprout.state ≠ .active
      ∧ ∃ s ∈ [c3bSprout], s.id = c3Entry.sproutId ∧ s.state = .completed :=
  ⟨graft_entry_point_policy.1 [c3aSprout] (by decide) c3aSprout (by decide),
   graft_entry_point_policy.2 [c3bSprout] c3Entry (by decide) (by decide)⟩

/-- C9: the assembled log is a function of the sprout list alone — it does
not depend on the hidden mutable state, and the hidden state is returned
unchanged, so repeated invocations on identical input give identical
output. -/
theorem buildUnifiedLog_deterministic :
    ∀ (h₁ h₂ : List String) (sprouts : List Sprout),
      (buildUnifiedLogSt h₁ sprouts).1 = (buildUnifiedLogSt h₂ sprouts).1
        ∧ (buildUnifiedLogSt h₁ sprouts).2 = h₁ :=
  fun _ _ _ => ⟨rfl, rfl⟩

/-- C2: the insufficient-resource branch of the spend is unreachable from
doGraft.  First part: whenever `canAffordSoil` is false for the cost
computed from the selected season and environment, doGraft mutates
nothing.  Second part: every run of doGraft either leaves the state
untouched, or `canAffordSoil` returned true for the very cost that is
then spent, the soil drops by exactly that cost (the success branch of
`spendSoil`), and exactly one sprout is appended. -/
theorem doGraft_spend_guarded :
    (∀ (form : GraftFormState) (nowDate : JsDate) (newId : String)
        (st : LedgerState) (season : SproutSeason) (env : SproutEnvironment),
      form.selectedSeason = some season →
      form.selectedEnvironment = some env →
      canAffordSoil st (calculateSoilCost season env) = false →
      doGraft form nowDate newId st = st)
    ∧ (∀ (form : GraftFormState) (nowDate : JsDate) (newId : String)
        (st : LedgerState),
      doGraft form nowDate newId st = st
        ∨ ∃ season env, form.selectedSeason = some season
            ∧ form.selectedEnvironment = some env
            ∧ canAffordSoil st (calculateSoilCost season env) = true
            ∧ (doGraft form nowDate newId st).soil
                + calculateSoilCost season env = st.soil
            ∧ (doGraft form nowDate newId st).sprouts.length
                = st.sprouts.length + 1) := by
  constructor
  · intro form nowDate newId st season env hseason henv hafford
    unfold doGraft
    rcases form.currentTwigId with _ | twigId
    · rfl
    rcases form.currentLeafId with _ | leafId
    · rfl
    rw [hseason, henv]
    by_cases ht : jsTrim form.titleInput = ""
    · simp [ht]
    · simp [ht, hafford]
  · intro form nowDate newId st
    unfold doGraft
    rcases form.currentTwigId with _ | twigId
    · exact Or.inl rfl
    rcases form.currentLeafId with _ | leafId
    · exact Or.inl rfl
    rcases hseason : form.selectedSeason with _ | season
    · exact Or.inl rfl
    rcases henv : form.selectedEnvironment with _ | env
    · exact Or.inl rfl
    by_cases ht : jsTrim form.titleInput = ""
    · exact Or.inl (by simp [ht])
    by_cases hafford : canAffordSoil st (calculateSoilCost season env) = true
    · refine Or.inr ⟨season, env, rfl, rfl, hafford, ?_, ?_⟩
      · simp only [ht, if_neg, hafford, Bool.not_true, Bool.false_eq_true,
          if_false, graftFromLeaf, spendSoil]
        have hle : calculateSoilCost season env ≤ st.soil := by
          simpa [canAffordSoil] using hafford
        simp [ht, hle]
      · simp only [graftFromLeaf, spendSoil]
        have hle : calculateSoilCost season env ≤ st.soil := by
          simpa [canAffordSoil] using hafford
        simp [ht, hafford, hle]
    · refine Or.inl ?_
      have : canAffordSoil st (calculateSoilCost season env) = false :=
        Bool.not_eq_true _ ▸ by simpa using hafford
      simp [ht, this]

/-- Witness for C2 at a concrete input: with 3 soil available and a
1-month firm graft selected (cost 30), doGraft changes nothing. -/
theorem doGraft_spend_guarded_witness :
    doGraft
      { currentTwigId := some "t1", currentLeafId := some "l1",
        selectedSeason := some .m1, selectedEnvironment := some .firm,
        titleInput := "Keep going" }
      { year := 2024, month := 0, day := 15, msOfDay := 0 } "n1"
      { soil := 3, sprouts := [] }
      = { soil := 3, sprouts := [] } :=
  doGraft_spend_guarded.1
    { currentTwigId := some "t1", currentLeafId := some "l1",
      selectedSeason := some .m1, selectedEnvironment := some .firm,
      titleInput := "Keep going" }
    { year := 2024, month := 0, day := 15, msOfDay := 0 } "n1"
    { soil := 3, sprouts := [] } .m1 .firm rfl rfl (by decide)

/-- C5: openShineDialog checks the weekly gate before sun affordability,
and the two checks are independent: a twig already reflected on this week
is rejected with the weekly-limit outcome whatever the sun balance is
(the rejection is invariant under replacing the sun balance), so the sun
check is never reached; and only a twig that passes the gate can be
rejected for lack of sun. -/
theorem openShineDialog_weekly_gate_first :
    (∀ (st : SunState) (dlg : ShineDialogState) (now : Int)
        (sproutId twigId promptPick : String),
      wasShoneThisWeek st now twigId = true →
      ∀ sun' : Nat,
        openShineDialog { st with sun := sun' } dlg now sproutId twigId promptPick
          = (dlg, .weeklyLimit))
    ∧ (∀ (st : SunState) (dlg : ShineDialogState) (now : Int)
        (sproutId twigId promptPick : String),
      wasShoneThisWeek st now twigId = false →
      canAffordSun st = false →
      openShineDialog st dlg now sproutId twigId promptPick = (dlg, .noSun)) := by
  constructor
  · intro st dlg now sproutId twigId promptPick hweek sun'
    have hweek' : wasShoneThisWeek { st with sun := sun' } now twigId = true := hweek
    rw [openShineDialog, if_pos hweek']
  · intro st dlg now sproutId twigId promptPick hweek hsun
    rw [openShineDialog, if_neg (by rw [hweek]; exact Bool.false_ne_true),
      if_pos (by rw [hsun]; rfl)]

/-- Witness for C5 at a concrete input: the twig "health" was reflected on
at time 0 and now is still within the same week; with any sun balance
(here 5) the call is rejected with the weekly-limit outcome. -/
theorem openShineDialog_weekly_gate_first_witness :
    openShineDialog
      { sun := 5, sunCapacity := 3,
        twigSunEntries := [("health", { timestamp := 0, content := "w",
                                        prompt := none })] }
      { currentShiningSprout := none, journalValue := "",
        journalPlaceholder := "", visible := false }
      1000 "s1" "health" "What gave you energy?"
      = ({ currentShiningSprout := none, journalValue := "",
           journalPlaceholder := "", visible := false }, .weeklyLimit) :=
  openShineDialog_weekly_gate_first.1
    { sun := 5, sunCapacity := 3,
      twigSunEntries := [("health", { timestamp := 0, content := "w",
                                      prompt := none })] }
    { currentShiningSprout := none, journalValue := "",
      journalPlaceholder := "", visible := false }
    1000 "s1" "health" "What gave you energy?" (by decide) 5

/-- C10: saveSunEntry never re-checks the weekly gate.  With a non-empty
trimmed journal, an affordable sun spend and a current shining sprout set,
it spends exactly one sun and appends exactly one reflection entry to the
shining twig — with no hypothesis on `wasShoneThisWeek`, so this holds in
particular for a twig already reflected on this calendar week.  With an
empty trimmed journal it is a complete no-op: state and dialog unchanged,
no status raised. -/
theorem saveSunEntry_no_weekly_recheck :
    (∀ (st : SunState) (dlg : ShineDialogState) (now : Int),
      jsTrim dlg.journalValue = "" →
      saveSunEntry st dlg now = (st, dlg, none))
    ∧ (∀ (st : SunState) (dlg : ShineDialogState) (now : Int)
        (cur : String × String),
      jsTrim dlg.journalValue ≠ "" →
      canAffordSun st = true →
      dlg.currentShiningSprout = some cur →
      (saveSunEntry st dlg now).1.sun + 1 = st.sun
        ∧ twigEntryCount (saveSunEntry st dlg now).1 cur.2
            = twigEntryCount st cur.2 + 1
        ∧ (saveSunEntry st dlg now).1.twigSunEntries.length
            = st.twigSunEntries.length + 1) := by
  constructor
  · intro st dlg now hempty
    rw [saveSunEntry]
    simp [hempty]
  · intro st dlg now cur hne hsun hcur
    have hsun' : 1 ≤ st.sun := by simpa [canAffordSun] using hsun
    rw [saveSunEntry]
    simp only [hne, if_neg, hsun, Bool.not_true, Bool.false_eq_true, if_false,
      hcur, spendSun, addSunEntry, twigEntryCount]
    simp [hne, hsun', twigEntryCount, addSunEntry, spendSun, hcur]

/-- Witness for C10 at a concrete input: the twig "health" already has a
reflection in the current week (timestamp 0, now 1000), yet saving a
non-blank journal with 2 sun available spends one sun and appends one
entry to the twig. -/
theorem saveSunEntry_no_weekly_recheck_witness :
    (saveSunEntry
        { sun := 2, sunCapacity := 3,
          twigSunEntries := [("health", { timestamp := 0, content := "w",
                                          prompt := none })] }
        { currentShiningSprout := some ("s1", "health"),
          journalValue := "  felt grateful  ",
          journalPlaceholder := "What gave you energy?", visible := true }
        1000).1.sun + 1 = 2
      ∧ twigEntryCount
          (saveSunEntry
            { sun := 2, sunCapacity := 3,
              twigSunEntries := [("health", { timestamp := 0, content := "w",
                                              prompt := none })] }
            { currentShiningSprout := some ("s1", "health"),
              journalValue := "  felt grateful  ",
              journalPlaceholder := "What gave you energy?", visible := true }
            1000).1 "health"
          = twigEntryCount
              { sun := 2, sunCapacity := 3,
                twigSunEntries := [("health", { timestamp := 0, content := "w",
                                                prompt := none })] } "health" + 1
      ∧ (saveSunEntry
          { sun := 2, sunCapacity := 3,
            twigSunEntries := [("health", { timestamp := 0, content := "w",
                                            prompt := none })] }
          { currentShiningSprout := some ("s1", "health"),
            journalValue := "  felt grateful  ",
            journalPlaceholder := "What gave you energy?", visible := true }
          1000).1.twigSunEntries.length
        = 1 + 1 :=
  saveSunEntry_no_weekly_recheck.2
    { sun := 2, sunCapacity := 3,
      twigSunEntries := [("health", { timestamp := 0, content := "w",
                                      prompt := none })] }
    { currentShiningSprout := some ("s1", "health"),
      journalValue := "  felt grateful  ",
      journalPlaceholder := "What gave you energy?", visible := true }
    1000 ("s1", "health") (by decide) (by decide) rfl

/-- C6: whenever prompt rotation returns a prompt, the prompt comes from
the fixed pool; it avoids the recently returned prompts whenever the
exclusion leaves a non-empty candidate set (and otherwise falls back to
the full pool); and the recency buffer stays within the cap
`min 10 (pool_size / 3)`. -/
theorem getRandomSunPrompt_policy :
    ∀ (sunPrompts recent : List String) (r : Nat) (p : String)
      (recentNext : List String),
      getRandomSunPrompt sunPrompts recent r = (some p, recentNext) →
      p ∈ sunPrompts
        ∧ ((sunPrompts.filter fun q => !recent.contains q) ≠ [] → p ∉ recent)
        ∧ (recent.length ≤ recentLimit sunPrompts →
            recentNext.length ≤ recentLimit sunPrompts) := by
  intro sunPrompts recent r p recentNext h
  rw [getRandomSunPrompt] at h
  rcases hget : (if (sunPrompts.filter fun q => !recent.contains q).length > 0
      then sunPrompts.filter fun q => !recent.contains q
      else sunPrompts)[r]? with _ | q
  · rw [hget] at h
    exact absurd h (by simp)
  · rw [hget] at h
    have hq : q = p := by
      have := congrArg Prod.fst h
      simpa using this
    subst hq
    have hmem : q ∈ (if (sunPrompts.filter fun q => !recent.contains q).length > 0
        then sunPrompts.filter fun q => !recent.contains q
        else sunPrompts) := List.getElem?_mem hget
    refine ⟨?_, ?_, ?_⟩
    · by_cases hav : (sunPrompts.filter fun q => !recent.contains q).length > 0
      · rw [if_pos hav] at hmem
        exact (List.mem_filter.mp hmem).1
      · rw [if_neg hav] at hmem
        exact hmem
    · intro hne
      have hav : (sunPrompts.filter fun q => !recent.contains q).length > 0 :=
        List.length_pos.mpr hne
      rw [if_pos hav] at hmem
      have := (List.mem_filter.mp hmem).2
      simpa using this
    · intro hlen
      have hsnd : recentNext =
          (if (recent ++ [q]).length > recentLimit sunPrompts
            then (recent ++ [q]).tail else recent ++ [q]) := by
        have := congrArg Prod.snd h
        simpa using this.symm
      rw [hsnd]
      by_cases hover : (recent ++ [q]).length > recentLimit sunPrompts
      · rw [if_pos hover]
        rcases recent with _ | ⟨x, xs⟩
        · simp
        · simp only [List.cons_append, List.tail_cons, List.length_append,
            List.length_cons, List.length_singleton]
          simp at hlen ⊢
          omega
      · rw [if_neg hover]
        omega

/-- Witness for C6 at a concrete input: a pool of six prompts (cap
`min 10 2 = 2`), a buffer holding one recent prompt, and draw index 0:
the returned prompt is in the pool and not among the recent ones, and the
buffer stays within the cap. -/
theorem getRandomSunPrompt_policy_witness :
    "b" ∈ ["a", "b", "c", "d", "e", "f"]
      ∧ ((["a", "b", "c", "d", "e", "f"].filter
            fun q => !(["a"].contains q)) ≠ [] → "b" ∉ ["a"])
      ∧ (["a"].length ≤ recentLimit ["a", "b", "c", "d", "e", "f"] →
          ["a", "b"].length ≤ recentLimit ["a", "b", "c", "d", "e", "f"]) :=
  getRandomSunPrompt_policy ["a", "b", "c", "d", "e", "f"] ["a"] 0 "b"
    ["a", "b"] (by decide)

/-- Every month has at least 28 days. -/
theorem daysInMonth_ge (y : Int) (m : Nat) : 28 ≤ daysInMonth y m := by
  unfold daysInMonth
  split <;> (try split) <;> omega

/-- Every month has at most 31 days. -/
theorem daysInMonth_le (y : Int) (m : Nat) : daysInMonth y m ≤ 31 := by
  unfold daysInMonth
  split <;> (try split) <;> omega

/-- The day-normalization worker ignores extra fuel: any two fuel values
at least the day count give the same result. -/
theorem normDayGo_fuel_eq :
    ∀ (f₁ f₂ : Nat) (y : Int) (mo d : Nat), d ≤ f₁ → d ≤ f₂ →
      normDayGo f₁ y mo d = normDayGo f₂ y mo d := by
  intro f₁
  induction f₁ with
  | zero =>
    intro f₂ y mo d h1 h2
    have hd : d = 0 := Nat.le_zero.mp h1
    subst hd
    cases f₂ with
    | zero => rfl
    | succ g => simp [normDayGo]
  | succ f ih =>
    intro f₂ y mo d h1 h2
    cases f₂ with
    | zero =>
      have hd : d = 0 := Nat.le_zero.mp h2
      subst hd
      simp [normDayGo]
    | succ g =>
      simp only [normDayGo]
      by_cases hle : d ≤ daysInMonth y mo
      · rw [if_pos hle, if_pos hle]
      · rw [if_neg hle, if_neg hle]
        have h28 := daysInMonth_ge y mo
        exact ih g _ _ _ (by omega) (by omega)

/-- An in-range day count normalizes to itself. -/
theorem normDay_of_le {y : Int} {mo d : Nat} (h : d ≤ daysInMonth y mo) :
    normDay y mo d = (y, mo, d) := by
  cases d with
  | zero => rfl
  | succ n =>
    rw [normDay]
    simp only [normDayGo]
    rw [if_pos h]

/-- An overflowing day count spills its excess into the next month. -/
theorem normDay_step {y : Int} {mo d : Nat} (h : daysInMonth y mo < d) :
    normDay y mo d
      = normDay (nextMonth y mo).1 (nextMonth y mo).2 (d - daysInMonth y mo) := by
  have h28 := daysInMonth_ge y mo
  obtain ⟨f, rfl⟩ : ∃ f, d = f + 1 := ⟨d - 1, by omega⟩
  rw [normDay]
  simp only [normDayGo]
  rw [if_neg (by omega)]
  rw [normDay]
  exact normDayGo_fuel_eq f _ _ _ _ (by omega) le_rfl

/-- Normalizing one more day is taking the calendar successor of the
normalized date. -/
theorem normDay_succ :
    ∀ d : Nat, 1 ≤ d → ∀ (y : Int) (mo : Nat),
      normDay y mo (d + 1) = succCivil (normDay y mo d) := by
  intro d
  induction d using Nat.strong_induction_on with
  | _ d ih =>
    intro hd y mo
    by_cases h1 : d + 1 ≤ daysInMonth y mo
    · rw [normDay_of_le h1, normDay_of_le (by omega)]
      simp only [succCivil]
      rw [if_pos (by omega)]
    · by_cases h2 : d ≤ daysInMonth y mo
      · rw [normDay_of_le h2]
        rw [normDay_step (by omega)]
        have h1' : d + 1 - daysInMonth y mo = 1 := by omega
        rw [h1']
        have h28 := daysInMonth_ge (nextMonth y mo).1 (nextMonth y mo).2
        rw [normDay_of_le (by omega)]
        simp only [succCivil]
        rw [if_neg (by omega)]
      · have h28 := daysInMonth_ge y mo
        rw [normDay_step (show daysInMonth y mo < d + 1 by omega),
          normDay_step (show daysInMonth y mo < d by omega)]
        have heq : d + 1 - daysInMonth y mo = (d - daysInMonth y mo) + 1 := by
          omega
        rw [heq]
        exact ih (d - daysInMonth y mo) (by omega) (by omega) _ _

/-- Normalizing `d + n` is iterating the calendar successor `n` times from
a valid date. -/
theorem normDay_add (y : Int) (mo d : Nat) (h1 : 1 ≤ d)
    (h2 : d ≤ daysInMonth y mo) :
    ∀ n : Nat, normDay y mo (d + n) = succCivil^[n] (y, mo, d) := by
  intro n
  induction n with
  | zero => simpa using normDay_of_le h2
  | succ k ihk =>
    have hstep : d + (k + 1) = (d + k) + 1 := by omega
    rw [hstep, normDay_succ (d + k) (by omega) y mo, ihk,
      Function.iterate_succ_apply']

/-- `setDate(getDate() + n)` adds `n` calendar days. -/
theorem jsSetDate_eq_addDays (dt : JsDate) (h : ValidJsDate dt) (n : Nat) :
    jsSetDate dt (dt.day + n) = addCalendarDays dt n := by
  obtain ⟨hmo, hd1, hd2, hms⟩ := h
  simp only [jsSetDate, addCalendarDays]
  rw [normDay_add dt.year dt.month dt.day hd1 hd2 n]

/-- `setMonth(getMonth() + k)` adds `k` calendar months. -/
theorem jsAddMonths_eq (dt : JsDate) (h : ValidJsDate dt) (k : Nat) :
    jsAddMonths dt k = addCalendarMonths dt k := by
  obtain ⟨hmo, hd1, hd2, hms⟩ := h
  have hy : (12 * dt.year + (dt.month : Int) + (k : Int)) / 12
      = dt.year + (((dt.month + k) / 12 : Nat) : Int) := by omega
  have hm : ((12 * dt.year + (dt.month : Int) + (k : Int)) % 12).toNat
      = (dt.month + k) % 12 := by omega
  simp only [jsAddMonths, addCalendarMonths, hy, hm]
  set y' : Int := dt.year + (((dt.month + k) / 12 : Nat) : Int) with hy'
  by_cases hle : dt.day ≤ daysInMonth y' ((dt.month + k) % 12)
  · rw [if_pos hle, normDay_of_le hle]
  · rw [if_neg hle]
    rw [normDay_step (by omega)]
    have hd31 := daysInMonth_le dt.year dt.month
    have h28 := daysInMonth_ge y' ((dt.month + k) % 12)
    have h28n := daysInMonth_ge (nextMonth y' ((dt.month + k) % 12)).1
      (nextMonth y' ((dt.month + k) % 12)).2
    rw [normDay_of_le (by omega)]

/-- `setFullYear(getFullYear() + k)` adds `k` calendar years. -/
theorem jsAddYears_eq (dt : JsDate) (h : ValidJsDate dt) (k : Nat) :
    jsAddYears dt k = addCalendarYears dt k := by
  obtain ⟨hmo, hd1, hd2, hms⟩ := h
  simp only [jsAddYears, addCalendarYears]
  by_cases hle : dt.day ≤ daysInMonth (dt.year + k) dt.month
  · rw [if_pos hle, normDay_of_le hle]
  · rw [if_neg hle]
    rw [normDay_step (by omega)]
    have hd31 := daysInMonth_le dt.year dt.month
    have h28 := daysInMonth_ge (dt.year + k) dt.month
    have h28n := daysInMonth_ge (nextMonth (dt.year + k) dt.month).1
      (nextMonth (dt.year + k) dt.month).2
    rw [normDay_of_le (by omega)]

/-- C7: for every season and every valid start date, getEndDate is the
start plus the season duration — 7 days for 1w, 14 days for 2w, 1, 3 or 6
calendar months, or 1 calendar year — anchored at 15:00:00.000 UTC. -/
theorem getEndDate_matches_spec :
    ∀ (season : SproutSeason) (start : JsDate), ValidJsDate start →
      getEndDate season start = endDateSpec season start := by
  intro season start h
  cases season
  · simp only [getEndDate, endDateSpec, jsSetUTCHours15]
    rw [jsSetDate_eq_addDays start h 7]
  · simp only [getEndDate, endDateSpec, jsSetUTCHours15]
    rw [jsSetDate_eq_addDays start h 14]
  · simp only [getEndDate, endDateSpec, jsSetUTCHours15]
    rw [jsAddMonths_eq start h 1]
  · simp only [getEndDate, endDateSpec, jsSetUTCHours15]
    rw [jsAddMonths_eq start h 3]
  · simp only [getEndDate, endDateSpec, jsSetUTCHours15]
    rw [jsAddMonths_eq start h 6]
  · simp only [getEndDate, endDateSpec, jsSetUTCHours15]
    rw [jsAddYears_eq start h 1]

/-- Witness for C7 at a concrete input: January 31, 2024 plus one month is
March 2, 2024 at 15:00 UTC under both the code and the calendar
specification. -/
theorem getEndDate_matches_spec_witness :
    ValidJsDate { year := 2024, month := 0, day := 31, msOfDay := 0 }
      ∧ getEndDate .m1 { year := 2024, month := 0, day := 31, msOfDay := 0 }
          = endDateSpec .m1 { year := 2024, month := 0, day := 31, msOfDay := 0 } :=
  ⟨by decide,
   getEndDate_matches_spec .m1
     { year := 2024, month := 0, day := 31, msOfDay := 0 } (by decide)⟩
